import Mathlib

/-!
Shallow embedding of the contact-resolution core of `mac_messages_mcp`
(`src/mac_messages_mcp/messages.py`), together with theorems settling the
claims about it.

Modelling conventions:
* Python strings are modelled as Lean `String` / `List Char`.  The character
  test `str.isdigit` is modelled in full, from the Unicode database of
  CPython; the regex classes `\w` and `\s` and the functions `str.lower`
  and `str.strip` are modelled on the ASCII range, which covers every input
  appearing in the claims that reaches them.
* Python floats are modelled as exact rationals `ℚ`.  Every score produced by
  the code is a ratio of small naturals, built with `mkRat` so that concrete
  instances evaluate inside the kernel.
* Python `dict` is modelled as an association list with first-occurrence
  lookup and replace-in-place insertion, which matches `dict` semantics
  (insertion order preserved, assignment to an existing key keeps its slot).
* Python `sorted(..., key=..., reverse=True)` is a stable descending sort; it
  is modelled by a stable insertion sort, which computes the same list (a
  stable sort is determined by sortedness + permutation + stability).
-/

set_option maxRecDepth 1000000

namespace MacMessages

/-- Code-point ranges, beyond the ASCII decimal digits, on which Python
`str.isdigit` returns true: the non-ASCII decimal digits of every script
together with the non-decimal digit code points (superscripts, circled
digits and similar), generated exhaustively from the Unicode database of
CPython 3.11.  Every range starts at or above code point 178. -/
def nonAsciiDigitRanges : List (Nat × Nat) :=
  [(178, 179), (185, 185), (1632, 1641), (1776, 1785), (1984, 1993),
   (2406, 2415), (2534, 2543), (2662, 2671), (2790, 2799), (2918, 2927),
   (3046, 3055), (3174, 3183), (3302, 3311), (3430, 3439), (3558, 3567),
   (3664, 3673), (3792, 3801), (3872, 3881), (4160, 4169), (4240, 4249),
   (4969, 4977), (6112, 6121), (6160, 6169), (6470, 6479), (6608, 6618),
   (6784, 6793), (6800, 6809), (6992, 7001), (7088, 7097), (7232, 7241),
   (7248, 7257), (8304, 8304), (8308, 8313), (8320, 8329), (9312, 9320),
   (9332, 9340), (9352, 9360), (9450, 9450), (9461, 9469), (9471, 9471),
   (10102, 10110), (10112, 10120), (10122, 10130), (42528, 42537),
   (43216, 43225), (43264, 43273), (43472, 43481), (43504, 43513),
   (43600, 43609), (44016, 44025), (65296, 65305), (66720, 66729),
   (68160, 68163), (68912, 68921), (69216, 69224), (69714, 69722),
   (69734, 69743), (69872, 69881), (69942, 69951), (70096, 70105),
   (70384, 70393), (70736, 70745), (70864, 70873), (71248, 71257),
   (71360, 71369), (71472, 71481), (71904, 71913), (72016, 72025),
   (72784, 72793), (73040, 73049), (73120, 73129), (92768, 92777),
   (92864, 92873), (93008, 93017), (120782, 120831), (123200, 123209),
   (123632, 123641), (125264, 125273), (127232, 127242), (130032, 130041)]

/-- Model of Python `str.isdigit` on single characters: the ASCII decimal
digits 0-9 together with every further Unicode code point that CPython
`str.isdigit` accepts (which includes non-decimal digit characters such as
the superscript two). -/
def pyIsDigit (c : Char) : Bool :=
  (decide (48 ≤ c.toNat) && decide (c.toNat ≤ 57)) ||
    nonAsciiDigitRanges.any (fun r => decide (r.1 ≤ c.toNat) && decide (c.toNat ≤ r.2))

/-- Model of the Python whitespace class `\s` on the ASCII range. -/
def pyIsSpace (c : Char) : Bool :=
  c == ' ' || c == '\t' || c == '\n' || c == '\x0d' || c == '\x0b' || c == '\x0c'

/-- Model of the regex word class `\w` on the ASCII range: alphanumerics and underscore. -/
def pyWordChar (c : Char) : Bool := c.isAlphanum || c == '_'

/-- Model of Python `str.lower` on the ASCII range. -/
def pyLower (s : List Char) : List Char := s.map Char.toLower

/-- Embedding of `normalize_phone_number` (messages.py lines 54-60): keep only
digit characters.  The Python guard `if not phone: return ""` coincides with
filtering the empty string. -/
def normalize_phone_number (phone : String) : String :=
  String.mk (phone.toList.filter pyIsDigit)

/-- Code-point ranges removed by the emoji regex in `clean_name`
(messages.py lines 72-86), as (lo, hi) inclusive pairs. -/
def emojiRanges : List (Nat × Nat) :=
  [(0x1F600, 0x1F64F), (0x1F300, 0x1F5FF), (0x1F680, 0x1F6FF),
   (0x1F700, 0x1F77F), (0x1F780, 0x1F7FF), (0x1F800, 0x1F8FF),
   (0x1F900, 0x1F9FF), (0x1FA00, 0x1FA6F), (0x1FA70, 0x1FAFF),
   (0x2702, 0x27B0), (0x24C2, 0x1F251)]

/-- Membership in the emoji character class of `clean_name`. -/
def inEmojiClass (c : Char) : Bool :=
  emojiRanges.any (fun r => decide (r.1 ≤ c.toNat) && decide (c.toNat ≤ r.2))

/-- Characters kept by the second substitution of `clean_name`: word
characters, whitespace, apostrophe and hyphen survive, everything else is
deleted. -/
def keepChar (c : Char) : Bool :=
  pyWordChar c || pyIsSpace c || c == '\'' || c == '-'

/-- Replacement of every maximal whitespace run by a single space, the effect
of the whitespace-collapsing substitution in `clean_name`.  The Boolean
argument records whether the
previous character was whitespace. -/
def collapseWsAux : Bool → List Char → List Char
  | _, [] => []
  | prevWs, c :: cs =>
    if pyIsSpace c then
      (if prevWs then ([] : List Char) else [' ']) ++ collapseWsAux true cs
    else c :: collapseWsAux false cs

/-- Whitespace-run collapsing starting outside a run. -/
def collapseWs (l : List Char) : List Char := collapseWsAux false l

/-- Model of Python `str.strip` (ASCII whitespace) on character lists. -/
def stripChars (l : List Char) : List Char :=
  ((l.dropWhile pyIsSpace).reverse.dropWhile pyIsSpace).reverse

/-- Model of Python `str.strip` on strings. -/
def pyStrip (s : String) : String := String.mk (stripChars s.toList)

/-- Embedding of `clean_name` (messages.py lines 67-96): remove the emoji
class, keep only word characters, whitespace, apostrophes and hyphens,
collapse whitespace runs and trim the ends. -/
def clean_name (name : String) : String :=
  let l1 := name.toList.filter (fun c => !inEmojiClass c)
  let l2 := l1.filter keepChar
  String.mk (stripChars (collapseWs l2))

/-- Test whether the first list occurs as a leading segment of the second. -/
def startsWithChars : List Char → List Char → Bool
  | [], _ => true
  | _ :: _, [] => false
  | p :: ps, c :: cs => p == c && startsWithChars ps cs

/-- Model of the Python substring test `needle in haystack`. -/
def hasSubChars (needle : List Char) : List Char → Bool
  | [] => startsWithChars needle []
  | c :: cs => startsWithChars needle (c :: cs) || hasSubChars needle cs

/-- Element access in a window, returning `none` out of range so that two
out-of-range positions never compare equal. -/
def chAt (l : List Char) (i : Nat) : Option Char := l.get? i

/-- Positions of a character in the second sequence, as built by the `b2j`
table of `difflib.SequenceMatcher.__chain_b` with `isjunk = None`: when the
second sequence has at least 200 elements, characters occurring more than
`len(b) // 100 + 1` times are purged as popular (autojunk). -/
def b2jPositions (b : List Char) (c : Char) : List Nat :=
  let idxs := (List.range b.length).filter (fun j => chAt b j == some c)
  if b.length ≥ 200 && idxs.length > b.length / 100 + 1 then [] else idxs

/-- One row of the `j2len` dynamic program inside
`SequenceMatcher.find_longest_match`: scan the occurrence positions of
`a[i]` in `[blo, bhi)`, extend runs from the previous row, and record a new
best triple `(besti, bestj, bestsize)` on strict improvement. -/
def flmRow (a b : List Char) (blo bhi : Nat) (i : Nat)
    (j2len : List (Nat × Nat)) (best : Nat × Nat × Nat) :
    (List (Nat × Nat)) × (Nat × Nat × Nat) :=
  let js := (b2jPositions b ((chAt a i).getD ' ')).filter
    (fun j => decide (blo ≤ j) && decide (j < bhi))
  js.foldl
    (fun acc j =>
      let k := (if j == 0 then 0 else (List.lookup (j - 1) j2len).getD 0) + 1
      let row := (j, k) :: acc.1
      if k > acc.2.2.2 then (row, (i + 1 - k, j + 1 - k, k)) else (row, acc.2))
    (([] : List (Nat × Nat)), best)

/-- The double loop of `find_longest_match`, over `i` in `[alo, ahi)`. -/
def flmLoop (a b : List Char) (alo ahi blo bhi : Nat) : Nat × Nat × Nat :=
  (((List.range' alo (ahi - alo)).foldl
    (fun st i => flmRow a b blo bhi i st.1 st.2)
    (([] : List (Nat × Nat)), (alo, blo, 0)))).2

/-- Leftward extension loop of `find_longest_match`.  With `isjunk = None`
the junk set is empty, so the two non-junk extension loops of the Python
source apply unconditionally and the two junk extension loops never fire.
The fuel is the initial `besti`, which bounds the number of decrements. -/
def extendLeft (a b : List Char) (alo blo : Nat) :
    Nat → Nat → Nat → Nat → Nat × Nat × Nat
  | 0, besti, bestj, bestsize => (besti, bestj, bestsize)
  | fuel + 1, besti, bestj, bestsize =>
    if alo < besti && blo < bestj &&
        (match chAt a (besti - 1), chAt b (bestj - 1) with
         | some x, some y => x == y
         | _, _ => false) then
      extendLeft a b alo blo fuel (besti - 1) (bestj - 1) (bestsize + 1)
    else (besti, bestj, bestsize)

/-- Rightward extension loop of `find_longest_match`; fuel bounds growth. -/
def extendRight (a b : List Char) (ahi bhi : Nat) :
    Nat → Nat → Nat → Nat → Nat × Nat × Nat
  | 0, besti, bestj, bestsize => (besti, bestj, bestsize)
  | fuel + 1, besti, bestj, bestsize =>
    if besti + bestsize < ahi && bestj + bestsize < bhi &&
        (match chAt a (besti + bestsize), chAt b (bestj + bestsize) with
         | some x, some y => x == y
         | _, _ => false) then
      extendRight a b ahi bhi fuel besti bestj (bestsize + 1)
    else (besti, bestj, bestsize)

/-- Embedding of `difflib.SequenceMatcher.find_longest_match` restricted to a
window, with `isjunk = None`. -/
def find_longest_match (a b : List Char) (alo ahi blo bhi : Nat) : Nat × Nat × Nat :=
  let r := flmLoop a b alo ahi blo bhi
  let r := extendLeft a b alo blo r.1 r.1 r.2.1 r.2.2
  extendRight a b ahi bhi ahi r.1 r.2.1 r.2.2

/-- Total size of the matching blocks found by
`SequenceMatcher.get_matching_blocks` on a window: recurse left and right of
the longest match exactly as the Python work queue does.  The fuel is an
upper bound on the recursion depth; every recursive call strictly shrinks
`(ahi - alo) + (bhi - blo)`, so fuel `ahi + bhi + 1` at the root suffices. -/
def matchingSum (a b : List Char) : Nat → Nat → Nat → Nat → Nat → Nat
  | 0, _, _, _, _ => 0
  | fuel + 1, alo, ahi, blo, bhi =>
    let m := find_longest_match a b alo ahi blo bhi
    let i := m.1
    let j := m.2.1
    let k := m.2.2
    if k == 0 then 0
    else
      k + (if alo < i && blo < j then matchingSum a b fuel alo i blo j else 0)
        + (if i + k < ahi && j + k < bhi then matchingSum a b fuel (i + k) ahi (j + k) bhi else 0)

/-- Embedding of `difflib.SequenceMatcher(None, a, b).ratio()`:
`2 * M / (len(a) + len(b))`, and 1 when both are empty. -/
def seqMatchScore (a b : List Char) : ℚ :=
  let la := a.length
  let lb := b.length
  if la + lb == 0 then 1
  else mkRat (2 * (matchingSum a b (la + lb + 1) 0 la 0 lb) : Nat) (la + lb)

/-- Entry of the list returned by `fuzzy_match`: a `(name, value, score)`
triple; in every call site the value is the phone key. -/
structure ScoredMatch where
  name : String
  value : String
  score : ℚ
deriving DecidableEq, Repr

/-- Scoring of one candidate inside the loop of `fuzzy_match`
(messages.py lines 113-132): exact match scores 1.0; a substring containment
scores `len(query) / len(candidate) * 0.9` and is kept only when that score
meets the threshold; otherwise the difflib similarity is computed and kept
when it meets the threshold. -/
def scoreStep (query : List Char) (threshold : ℚ) (nm : String × String) :
    Option ScoredMatch :=
  let clean_candidate := pyLower (clean_name nm.1).toList
  if query == clean_candidate then some ⟨nm.1, nm.2, 1⟩
  else
    let subScore : ℚ := mkRat (9 * query.length : Nat) (10 * clean_candidate.length)
    if hasSubChars query clean_candidate && decide (threshold ≤ subScore) then
      some ⟨nm.1, nm.2, subScore⟩
    else
      let r := seqMatchScore query clean_candidate
      if decide (threshold ≤ r) then some ⟨nm.1, nm.2, r⟩ else none

/-- The `results` list of `fuzzy_match` before sorting, in candidate order. -/
def fuzzy_match_raw (query0 : String) (candidates : List (String × String))
    (threshold : ℚ) : List ScoredMatch :=
  let query := pyLower (clean_name query0).toList
  candidates.filterMap (scoreStep query threshold)

/-- Stable insertion of an element into a list: it is placed immediately
before the first element `y` with `le y x`. -/
def insertStable (le : α → α → Bool) (x : α) : List α → List α
  | [] => [x]
  | y :: ys => if le y x then x :: y :: ys else y :: insertStable le x ys

/-- Stable sort obtained by successive stable insertions; for a total and
transitive `le` this computes the unique stable sort, hence the same list as
Python `sorted` with the corresponding key and direction. -/
def sortStable (le : α → α → Bool) : List α → List α
  | [] => []
  | x :: xs => insertStable le x (sortStable le xs)

/-- Comparison used to model `sorted(results, key=lambda x: x[2], reverse=True)`. -/
def scoreLe (x y : ScoredMatch) : Bool := decide (x.score ≤ y.score)

/-- Embedding of `fuzzy_match` (messages.py lines 98-135). -/
def fuzzy_match (query0 : String) (candidates : List (String × String))
    (threshold : ℚ) : List ScoredMatch :=
  sortStable scoreLe (fuzzy_match_raw query0 candidates threshold)

/-- Embedding of `find_contact_by_name` (messages.py lines 342-369): the
directory is the cached phone-to-name map in insertion order; candidates are
its `(name, phone)` pairs; the default threshold 0.6 is used. -/
def find_contact_by_name (contacts : List (String × String)) (name : String) :
    List ScoredMatch :=
  fuzzy_match name (contacts.map (fun pc => (pc.2, pc.1))) (mkRat 3 5)

/-- One row of the contacts query, as consumed by `process_contacts`; a SQL
NULL name is modelled by the empty string, which `filter(None, ...)` treats
identically. -/
structure ContactRow where
  first_name : String
  last_name : String
  phone : String
deriving DecidableEq, Repr

/-- Python dict assignment `m[k] = v` on an association list: replace the
first binding of the key in place, else append a new binding. -/
def dinsert : List (String × String) → String → String → List (String × String)
  | [], k, v => [(k, v)]
  | e :: es, k, v => if e.1 == k then (k, v) :: es else e :: dinsert es k v

/-- The reverse-index update of `process_contacts`: create the entry for the
name when absent, then append the phone to its list. -/
def rupdate : List (String × List String) → String → String → List (String × List String)
  | [], k, v => [(k, [v])]
  | e :: es, k, v => if e.1 == k then (e.1, e.2 ++ [v]) :: es else e :: rupdate es k v

/-- Lookup in the forward map. -/
def dlookup (m : List (String × String)) (k : String) : Option String :=
  List.lookup k m

/-- Lookup in the reverse index, defaulting to the empty phone list. -/
def rlookup (m : List (String × List String)) (k : String) : List String :=
  (List.lookup k m).getD []

/-- The effect of `phone.split("X-IMAGETYPE")[0]`: the segment before the
first occurrence of the marker, or the whole list when absent. -/
def splitFirstAt (pat : List Char) : List Char → List Char
  | [] => []
  | c :: cs => if startsWithChars pat (c :: cs) then [] else c :: splitFirstAt pat cs

/-- The image-metadata strip of `process_contacts`: the guarded
`phone.split("X-IMAGETYPE")[0]` equals the unconditional split. -/
def stripImageType (phone : String) : String :=
  String.mk (splitFirstAt ("X-IMAGETYPE".toList) phone.toList)

/-- The name join `" ".join(filter(None, [first_name, last_name]))`. -/
def joinName (first last : String) : String :=
  if first.isEmpty then last
  else if last.isEmpty then first
  else first ++ " " ++ last

/-- Processing of a single contact record inside the loop of
`process_contacts` (messages.py lines 223-254): skip rows without a phone,
strip image metadata, skip blank display names, normalize the phone, and on a
non-empty key update the forward map and the reverse index. -/
def processOne (st : (List (String × String)) × (List (String × List String)))
    (c : ContactRow) :
    (List (String × String)) × (List (String × List String)) :=
  if c.phone.isEmpty then st
  else
    let phone := stripImageType c.phone
    let full_name := joinName c.first_name c.last_name
    if (pyStrip full_name).isEmpty then st
    else
      let normalized := normalize_phone_number phone
      if normalized.isEmpty then st
      else (dinsert st.1 normalized full_name, rupdate st.2 full_name normalized)

/-- Embedding of `process_contacts` (messages.py lines 218-260): returns the
forward phone-to-name map and the reverse name-to-phones index that the
Python function leaves in `_NAME_TO_NUMBERS_MAP`. -/
def process_contacts (rows : List ContactRow) :
    (List (String × String)) × (List (String × List String)) :=
  rows.foldl processOne ([], [])

/-- State of the module-level contacts cache: the cached snapshot (if any)
and the time of the last refresh. -/
structure CacheState where
  cache : Option (List (String × String))
  lastUpdate : Int
deriving DecidableEq, Repr

/-- Embedding of `get_cached_contacts` (messages.py lines 331-340).  The
refresh result is passed as the `fetch` argument, modelling the return value
of `get_addressbook_contacts()`; when the contacts store is unavailable that
function returns the empty map (its exception handler returns `{}` and its
subprocess fallback also degrades to `{}`).  The cache TTL is 300 seconds. -/
def get_cached_contacts (fetch : List (String × String)) (now : Int)
    (st : CacheState) : (List (String × String)) × CacheState :=
  if st.cache.isNone || decide (300 < now - st.lastUpdate) then
    (fetch, ⟨some fetch, now⟩)
  else (st.cache.getD [], st)

/-- Embedding of the AddressBook probing section of `get_contact_name`
(messages.py lines 509-524): look up the normalized handle; else when it
starts with 1 and is longer than 10 digits, look up the remainder after the
leading 1; else when it is exactly 10 digits, look up the 1-prefixed form.
`none` means no directory hit (the Python code then falls back to chat
display names). -/
def get_contact_name_probe (contacts : List (String × String))
    (handle_value : String) : Option String :=
  let normalized := normalize_phone_number handle_value
  match dlookup contacts normalized with
  | some nm => some nm
  | none =>
    if startsWithChars ['1'] normalized.toList && decide (10 < normalized.length) then
      dlookup contacts (String.mk (normalized.toList.drop 1))
    else if normalized.length == 10 then
      dlookup contacts (("1" : String) ++ normalized)
    else none

/-- Modelled from the claim text of C4 (and spec section 4.5), for
comparison with the code: probe the normalized key; then, only when the key
is exactly 11 digits starting with 1, its 10-digit suffix; then, only when
the key is exactly 10 digits, the 1-prefixed key.  First hit wins. -/
def resolveDirectNumberClaim (contacts : List (String × String))
    (raw : String) : Option String :=
  let n := normalize_phone_number raw
  match dlookup contacts n with
  | some nm => some nm
  | none =>
    match (if n.length == 11 && startsWithChars ['1'] n.toList then
             dlookup contacts (String.mk (n.toList.drop 1))
           else none) with
    | some nm => some nm
    | none =>
      if n.length == 10 then dlookup contacts (("1" : String) ++ n) else none

/-- First hit of a sequence of directory probes. -/
def firstHit (contacts : List (String × String)) : List String → Option String
  | [] => none
  | k :: ks =>
    match dlookup contacts k with
    | some nm => some nm
    | none => firstHit contacts ks

/-- Embedding of the `contact:N` selection logic shared by `send_message`
(messages.py lines 387-403) and `get_recent_messages` (lines 569-584): with
no recorded matches any selection fails; otherwise the zero-based index
`i - 1` must lie inside the list, and the selected candidate is returned. -/
def selectByIndex (ms : List ScoredMatch) (i : Int) :
    Except String ScoredMatch :=
  if ms.isEmpty then
    Except.error ("No recent contact matches available. Please search for a contact first.")
  else if h : i - 1 < 0 ∨ (ms.length : Int) ≤ i - 1 then
    Except.error (("Invalid selection. Please choose a number between 1 and " : String)
      ++ toString ms.length ++ ".")
  else
    Except.ok (ms.get ⟨(i - 1).toNat, by omega⟩)

/-- Outcome of the `contact:N` branch of `send_message`: either a message is
handed to `_send_message_to_recipient` or an error string is returned and
nothing is sent. -/
inductive SendOutcome where
  | sent (recipient : String) (body : String) (contactName : Option String)
  | errorText (s : String)
deriving DecidableEq, Repr

/-- Predicate picking out the sending outcome. -/
def SendOutcome.isSent : SendOutcome → Bool
  | .sent _ _ _ => true
  | .errorText _ => false

/-- The `contact:N` branch of `send_message`: on a successful selection the
selected phone and name are handed to `_send_message_to_recipient`. -/
def send_message_selection (ms : List ScoredMatch) (i : Int)
    (message : String) : SendOutcome :=
  match selectByIndex ms i with
  | .ok c => .sent c.value message (some c.name)
  | .error e => .errorText e

/-- Outcome of the `contact:N` branch of `get_recent_messages`: either the
function proceeds to query history with the selected phone, or it returns an
error string without querying. -/
inductive HistoryOutcome where
  | proceed (phone : String)
  | errorText (s : String)
deriving DecidableEq, Repr

/-- Predicate picking out the proceed-to-query outcome. -/
def HistoryOutcome.isProceed : HistoryOutcome → Bool
  | .proceed _ => true
  | .errorText _ => false

/-- The `contact:N` branch of `get_recent_messages`: a successful selection
replaces the contact argument with the selected phone and the function goes
on to query message history. -/
def get_recent_messages_selection (ms : List ScoredMatch) (i : Int) :
    HistoryOutcome :=
  match selectByIndex ms i with
  | .ok c => .proceed c.value
  | .error e => .errorText e

/-- One message row as read from the store by `get_recent_messages`; a SQL
NULL text is `none`, and `is_from_me` is the truthiness of the stored flag. -/
structure MessageRow where
  date : Int
  text : Option String
  is_from_me : Bool
  handle_id : Option Int
deriving DecidableEq, Repr

/-- Truthiness of the text field as read by the formatting loop: both NULL
and the empty string are
falsy and cause the row to be skipped. -/
def textPresent (m : MessageRow) : Bool := !(m.text.getD ("")).isEmpty

/-- The line rendered for one message by `get_recent_messages`
(messages.py line 697).  The calendar rendering of the Apple-epoch date and
the sender resolution of `get_contact_name` are passed as functions, since
they consult the clock and the databases. -/
def renderLine (renderDate : Int → String) (senderName : Option Int → String)
    (m : MessageRow) : String :=
  ("[" : String) ++ renderDate m.date ++ "] "
    ++ (if m.is_from_me then ("You" : String) else senderName m.handle_id)
    ++ ": " ++ m.text.getD ("")

/-- The `formatted_messages` list built by the loop of `get_recent_messages`
(messages.py lines 679-698): rows with falsy text are skipped, all others
are rendered in order. -/
def formatMessages (renderDate : Int → String) (senderName : Option Int → String)
    (msgs : List MessageRow) : List String :=
  msgs.filterMap (fun m =>
    if textPresent m then some (renderLine renderDate senderName m) else none)

/-- The sentinel returned when no text-bearing rows remain. -/
def noMessagesSentinel : String := "No messages found in the specified time period."

/-- The result assembly of `get_recent_messages` (messages.py lines 672-703)
on rows read without a store error: an empty row set and a row set with no
text-bearing rows both yield the sentinel, otherwise the rendered lines are
joined with newlines. -/
def formatTranscript (renderDate : Int → String) (senderName : Option Int → String)
    (msgs : List MessageRow) : String :=
  if msgs.isEmpty then noMessagesSentinel
  else
    let fm := formatMessages renderDate senderName msgs
    if fm.isEmpty then noMessagesSentinel
    else String.intercalate ("\n") fm

/-- Byte-wise (code-point) lexicographic comparison, the SQLite ordering of
TEXT values under the default BINARY collation. -/
def strLtChars : List Char → List Char → Bool
  | [], [] => false
  | [], _ :: _ => true
  | _ :: _, [] => false
  | a :: as, b :: bs =>
    if a.toNat < b.toNat then true
    else if b.toNat < a.toNat then false
    else strLtChars as bs

/-- Comparison used to model `ORDER BY m.date DESC`. -/
def dateLe (x y : MessageRow) : Bool := decide (x.date ≤ y.date)

/-- Semantics of the message query of `get_recent_messages`
(messages.py lines 648-667) over a store of rows: keep rows whose date,
cast to text, is lexicographically greater than the cutoff text
(`CAST(m.date AS TEXT) > ?`), order by date descending, and return at most
100 rows (`ORDER BY m.date DESC LIMIT 100`). -/
def recentQueryRows (store : List MessageRow) (cutoff : Int) : List MessageRow :=
  let filtered := store.filter
    (fun m => strLtChars (toString cutoff).toList (toString m.date).toList)
  (sortStable dateLe filtered).take 100

theorem mem_insertStable {α : Type _} (le : α → α → Bool) (x : α) (l : List α) (a : α) :
    a ∈ insertStable le x l ↔ a = x ∨ a ∈ l := by
  induction l with
  | nil => simp [insertStable]
  | cons y ys ih =>
    by_cases h : le y x = true
    · simp [insertStable, h]
    · simp [insertStable, h, ih]
      tauto

theorem insertStable_perm {α : Type _} (le : α → α → Bool) (x : α) (l : List α) :
    List.Perm (insertStable le x l) (x :: l) := by
  induction l with
  | nil => simp [insertStable]
  | cons y ys ih =>
    by_cases h : le y x = true
    · simp [insertStable, h]
    · rw [insertStable, if_neg h]
      exact (ih.cons y).trans (List.Perm.swap x y ys)

theorem sortStable_perm {α : Type _} (le : α → α → Bool) (l : List α) :
    List.Perm (sortStable le l) l := by
  induction l with
  | nil => simp [sortStable]
  | cons x xs ih => exact (insertStable_perm le x _).trans (ih.cons x)

theorem pairwise_insertStable {α : Type _} (le : α → α → Bool)
    (htrans : ∀ a b c : α, le a b = true → le b c = true → le a c = true)
    (htot : ∀ a b : α, le a b = true ∨ le b a = true)
    (x : α) (l : List α) (h : l.Pairwise (fun a b => le b a = true)) :
    (insertStable le x l).Pairwise (fun a b => le b a = true) := by
  induction l with
  | nil => simp [insertStable]
  | cons y ys ih =>
    rw [List.pairwise_cons] at h
    obtain ⟨hy, hys⟩ := h
    by_cases hle : le y x = true
    · rw [insertStable, if_pos hle, List.pairwise_cons]
      refine ⟨?_, ?_⟩
      · intro b hb
        rcases List.mem_cons.mp hb with rfl | hb
        · exact hle
        · exact htrans _ _ _ (hy b hb) hle
      · rw [List.pairwise_cons]
        exact ⟨hy, hys⟩
    · rw [insertStable, if_neg hle, List.pairwise_cons]
      refine ⟨?_, ih hys⟩
      intro b hb
      rcases (mem_insertStable le x ys b).mp hb with rfl | hb
      · rcases htot b y with h1 | h1
        · exact h1
        · exact absurd h1 hle
      · exact hy b hb

theorem pairwise_sortStable {α : Type _} (le : α → α → Bool)
    (htrans : ∀ a b c : α, le a b = true → le b c = true → le a c = true)
    (htot : ∀ a b : α, le a b = true ∨ le b a = true)
    (l : List α) :
    (sortStable le l).Pairwise (fun a b => le b a = true) := by
  induction l with
  | nil => simp [sortStable]
  | cons x xs ih => exact pairwise_insertStable le htrans htot x _ ih

theorem filter_insertStable {α : Type _} (le : α → α → Bool) (p : α → Bool)
    (x : α) (l : List α)
    (hcomp : ∀ y, p x = true → le y x = false → p y = false) :
    (insertStable le x l).filter p =
      if p x then x :: l.filter p else l.filter p := by
  induction l with
  | nil =>
    by_cases hpx : p x = true <;> simp [insertStable, List.filter, hpx]
  | cons y ys ih =>
    by_cases hle : le y x = true
    · rw [insertStable, if_pos hle]
      by_cases hpx : p x = true <;> simp [List.filter_cons, hpx]
    · rw [insertStable, if_neg hle]
      rw [List.filter_cons, ih]
      by_cases hpx : p x = true
      · have hpy : p y = false :=
          hcomp y hpx (by simpa using hle)
        simp [hpx, hpy, List.filter_cons]
      · have hpxf : p x = false := by simpa using hpx
        simp [hpxf, List.filter_cons]

theorem filter_sortStable {α : Type _} (le : α → α → Bool) (p : α → Bool)
    (hcomp : ∀ x y, p x = true → le y x = false → p y = false) (l : List α) :
    (sortStable le l).filter p = l.filter p := by
  induction l with
  | nil => rfl
  | cons x xs ih =>
    rw [sortStable, filter_insertStable le p x _ (fun y => hcomp x y), ih,
      List.filter_cons]

/-- C9 counterexample: on the input consisting of the single superscript-two
character, which Python `str.isdigit` accepts although it is not a decimal
digit, the normalizer returns the character unchanged, so its output is
non-empty and contains a character that is not a decimal digit. -/
theorem normalize_keeps_superscript_two :
    normalize_phone_number (String.mk [Char.ofNat 178]) = String.mk [Char.ofNat 178] ∧
    (normalize_phone_number (String.mk [Char.ofNat 178])).toList.all Char.isDigit = false := by
  refine ⟨by decide, by decide⟩

/-- C9 amended: the phone normalizer is idempotent for every string, and its
output consists only of characters accepted by Python `str.isdigit` — the
decimal digits together with the non-decimal Unicode digit code points such
as superscripts; when every character of the input is ASCII, the output
consists only of decimal digit characters.  The empty string maps to the
empty string as an instance of the definition. -/
theorem normalize_phone_number_idempotent (x : String) :
    normalize_phone_number (normalize_phone_number x) = normalize_phone_number x ∧
    (normalize_phone_number x).toList.all pyIsDigit = true ∧
    (x.toList.all (fun c => decide (c.toNat < 128)) = true →
      (normalize_phone_number x).toList.all Char.isDigit = true) := by
  refine ⟨?_, ?_, ?_⟩
  · show String.mk (((x.toList.filter pyIsDigit)).filter pyIsDigit) = _
    rw [List.filter_filter]
    simp [normalize_phone_number]
  · rw [List.all_eq_true]
    intro c hc
    exact (List.mem_filter.mp hc).2
  · intro hascii
    rw [List.all_eq_true]
    intro c hc
    have hmem := List.mem_filter.mp hc
    have hd : pyIsDigit c = true := hmem.2
    have hlt : c.toNat < 128 :=
      of_decide_eq_true (List.all_eq_true.mp hascii c hmem.1)
    rw [pyIsDigit, Bool.or_eq_true] at hd
    rcases hd with hr | hr
    · obtain ⟨h1, h2⟩ := Bool.and_eq_true_iff.mp hr
      have h1 := of_decide_eq_true h1
      have h2 := of_decide_eq_true h2
      simp only [Char.isDigit, ge_iff_le, Bool.and_eq_true, decide_eq_true_eq]
      refine ⟨?_, ?_⟩
      · rw [UInt32.le_def, BitVec.le_def]
        exact h1
      · rw [UInt32.le_def, BitVec.le_def]
        exact h2
    · exfalso
      have hlo : nonAsciiDigitRanges.all (fun r => decide (178 ≤ r.1)) = true := by decide
      rcases List.any_eq_true.mp hr with ⟨r, hrmem, hrp⟩
      have h1 := of_decide_eq_true (Bool.and_eq_true_iff.mp hrp).1
      have hge : 178 ≤ r.1 :=
        of_decide_eq_true (List.all_eq_true.mp hlo r hrmem)
      omega

theorem normalize_phone_number_idempotent_witness :
    (("+1 (310) 555-1234" : String).toList.all (fun c => decide (c.toNat < 128)) = true) ∧
    ((normalize_phone_number ("+1 (310) 555-1234")).toList.all Char.isDigit = true) :=
  ⟨by decide,
   (normalize_phone_number_idempotent ("+1 (310) 555-1234")).2.2 (by decide)⟩

theorem formatMessages_eq (rd : Int → String) (sn : Option Int → String)
    (rows : List MessageRow) :
    formatMessages rd sn rows = (rows.filter textPresent).map (renderLine rd sn) := by
  induction rows with
  | nil => rfl
  | cons m ms ih =>
    by_cases h : textPresent m = true <;>
      simp [formatMessages, List.filterMap_cons, h, List.filter_cons, ih] <;>
      simpa [formatMessages] using ih

/-- C8: the transcript formatter renders exactly the rows whose text is
present (rows with empty or NULL text are excluded even when otherwise
well-formed), and when no text-bearing row remains it returns the
no-messages sentinel rather than an empty transcript. -/
theorem format_transcript_drops_empty_text (rd : Int → String)
    (sn : Option Int → String) (rows : List MessageRow) :
    formatMessages rd sn rows = (rows.filter textPresent).map (renderLine rd sn) ∧
    (rows.filter textPresent = [] →
      formatTranscript rd sn rows = noMessagesSentinel) := by
  refine ⟨formatMessages_eq rd sn rows, ?_⟩
  intro hempty
  unfold formatTranscript
  by_cases hrows : rows.isEmpty
  · simp [hrows]
  · simp only [hrows, if_false, Bool.false_eq_true]
    rw [formatMessages_eq, hempty]
    simp

/-- Row with well-formed metadata but empty text, used as the C8 witness. -/
def emptyTextRow : MessageRow := ⟨0, some (""), false, none⟩

theorem format_transcript_drops_empty_text_witness :
    ([emptyTextRow].filter textPresent = []) ∧
    formatTranscript (fun _ => ("")) (fun _ => ("")) [emptyTextRow] = noMessagesSentinel :=
  ⟨by decide,
   (format_transcript_drops_empty_text (fun _ => ("")) (fun _ => ("")) [emptyTextRow]).2
     (by decide)⟩

theorem dateLe_trans : ∀ a b c : MessageRow,
    dateLe a b = true → dateLe b c = true → dateLe a c = true := by
  intro a b c hab hbc
  simp only [dateLe, decide_eq_true_eq] at *
  exact le_trans hab hbc

theorem dateLe_total : ∀ a b : MessageRow, dateLe a b = true ∨ dateLe b a = true := by
  intro a b
  simp only [dateLe, decide_eq_true_eq]
  exact le_total _ _

/-- C10: the recent-messages query returns at most 100 rows, ordered by
non-increasing date, so the formatted transcript is built from at most 100
message rows. -/
theorem recent_messages_capped_at_100 (store : List MessageRow) (cutoff : Int)
    (rd : Int → String) (sn : Option Int → String) :
    (recentQueryRows store cutoff).length ≤ 100 ∧
    (recentQueryRows store cutoff).Pairwise (fun a b => b.date ≤ a.date) ∧
    (formatMessages rd sn (recentQueryRows store cutoff)).length ≤ 100 := by
  have hlen : (recentQueryRows store cutoff).length ≤ 100 := by
    unfold recentQueryRows
    exact List.length_take_le 100 _
  refine ⟨hlen, ?_, ?_⟩
  · unfold recentQueryRows
    have hp := pairwise_sortStable dateLe dateLe_trans dateLe_total
      (store.filter (fun m => strLtChars (toString cutoff).toList (toString m.date).toList))
    have hs := List.Pairwise.sublist (List.take_sublist 100 _) hp
    exact hs.imp (fun h => by simp only [dateLe, decide_eq_true_eq] at h; exact h)
  · exact le_trans (List.length_filterMap_le _ _) hlen

theorem lookup_dinsert (m : List (String × String)) (k v k' : String) :
    List.lookup k' (dinsert m k v) =
      if k' = k then some v else List.lookup k' m := by
  induction m with
  | nil =>
    by_cases h : k' = k
    · have hb : (k' == k) = true := beq_iff_eq.mpr h
      simp [dinsert, List.lookup_cons, hb, h]
    · have hb : (k' == k) = false := beq_eq_false_iff_ne.mpr h
      simp [dinsert, List.lookup_cons, hb, h]
  | cons e es ih =>
    obtain ⟨ek, ev⟩ := e
    by_cases he : ek = k
    · rw [dinsert, if_pos (beq_iff_eq.mpr he)]
      by_cases h : k' = k
      · have hb : (k' == k) = true := beq_iff_eq.mpr h
        simp [List.lookup_cons, hb, h]
      · have hb : (k' == k) = false := beq_eq_false_iff_ne.mpr h
        have hne : ¬ k' = ek := fun hc => h (hc.trans he)
        have hbe : (k' == ek) = false := beq_eq_false_iff_ne.mpr hne
        simp [List.lookup_cons, hb, hbe, h]
    · rw [dinsert, if_neg (by simpa [beq_iff_eq] using he)]
      by_cases h : k' = ek
      · have hb : (k' == ek) = true := beq_iff_eq.mpr h
        have hk : ¬ k' = k := fun hkk => he (h.symm.trans hkk)
        simp [List.lookup_cons, hb, hk]
      · have hb : (k' == ek) = false := beq_eq_false_iff_ne.mpr h
        simp [List.lookup_cons, hb, ih]

theorem mem_rupdate_self (m : List (String × List String)) (k v : String) :
    v ∈ rlookup (rupdate m k v) k := by
  induction m with
  | nil => simp [rupdate, rlookup, List.lookup_cons]
  | cons e es ih =>
    obtain ⟨ek, ev⟩ := e
    by_cases he : ek = k
    · rw [rupdate, if_pos (beq_iff_eq.mpr he)]
      have hb : (k == ek) = true := beq_iff_eq.mpr he.symm
      simp [rlookup, List.lookup_cons, hb]
    · rw [rupdate, if_neg (by simpa [beq_iff_eq] using he)]
      have hb : (k == ek) = false := beq_eq_false_iff_ne.mpr (fun hc => he hc.symm)
      simpa [rlookup, List.lookup_cons, hb] using ih

theorem mem_rupdate_mono (m : List (String × List String)) (k v n x : String)
    (h : x ∈ rlookup m n) : x ∈ rlookup (rupdate m k v) n := by
  induction m with
  | nil => simp [rlookup] at h
  | cons e es ih =>
    obtain ⟨ek, ev⟩ := e
    by_cases hn : n = ek
    · have hb : (n == ek) = true := beq_iff_eq.mpr hn
      simp only [rlookup, List.lookup_cons, hb, Option.getD_some] at h
      by_cases he : ek = k
      · rw [rupdate, if_pos (beq_iff_eq.mpr he)]
        simp only [rlookup, List.lookup_cons, hb, Option.getD_some, List.mem_append]
        exact Or.inl h
      · rw [rupdate, if_neg (by simpa [beq_iff_eq] using he)]
        simp only [rlookup, List.lookup_cons, hb, Option.getD_some]
        exact h
    · have hb : (n == ek) = false := beq_eq_false_iff_ne.mpr hn
      simp only [rlookup, List.lookup_cons, hb] at h
      by_cases he : ek = k
      · rw [rupdate, if_pos (beq_iff_eq.mpr he)]
        simp only [rlookup, List.lookup_cons, hb]
        exact h
      · rw [rupdate, if_neg (by simpa [beq_iff_eq] using he)]
        simp only [rlookup, List.lookup_cons, hb]
        exact ih h

/-- Consistency of a forward map with a reverse index: every forward binding
is recorded in the phone list of its own display name. -/
def RevInv (fwd : List (String × String)) (rev : List (String × List String)) : Prop :=
  ∀ k n, dlookup fwd k = some n → k ∈ rlookup rev n

theorem revInv_processOne {fwd : List (String × String)}
    {rev : List (String × List String)} (h : RevInv fwd rev) (c : ContactRow) :
    RevInv (processOne (fwd, rev) c).1 (processOne (fwd, rev) c).2 := by
  unfold processOne
  by_cases h1 : c.phone.isEmpty
  · simpa [h1] using h
  · simp only [h1, Bool.false_eq_true, if_false]
    by_cases h2 : (pyStrip (joinName c.first_name c.last_name)).isEmpty
    · simpa [h2] using h
    · simp only [h2, Bool.false_eq_true, if_false]
      by_cases h3 : (normalize_phone_number (stripImageType c.phone)).isEmpty
      · simpa [h3] using h
      · simp only [h3, Bool.false_eq_true, if_false]
        intro k n hk
        rw [dlookup, lookup_dinsert] at hk
        by_cases hkn : k = normalize_phone_number (stripImageType c.phone)
        · rw [if_pos hkn] at hk
          cases hk
          exact hkn ▸ mem_rupdate_self _ _ _
        · rw [if_neg hkn] at hk
          exact mem_rupdate_mono _ _ _ _ _ (h k n hk)

theorem revInv_foldl (rows : List ContactRow) :
    ∀ fwd rev, RevInv fwd rev →
      RevInv (rows.foldl processOne (fwd, rev)).1 (rows.foldl processOne (fwd, rev)).2 := by
  induction rows with
  | nil => intro _ _ h; exact h
  | cons c cs ih =>
    intro fwd rev h
    rw [List.foldl_cons]
    have hstep := revInv_processOne h c
    have : processOne (fwd, rev) c =
        ((processOne (fwd, rev) c).1, (processOne (fwd, rev) c).2) := rfl
    rw [this]
    exact ih _ _ hstep

/-- C7: every directory snapshot built by `process_contacts` is internally
consistent: a phone key bound to a display name in the forward map is always
a member of the phone list of that display name in the reverse index, including
when the same normalized phone occurs in several input rows (a later row
overwrites the forward binding and also appends the key to the reverse list
of the new name). -/
theorem process_contacts_forward_reverse_consistent (rows : List ContactRow)
    (k n : String) (h : dlookup (process_contacts rows).1 k = some n) :
    k ∈ rlookup (process_contacts rows).2 n := by
  have hbase : RevInv ([] : List (String × String)) ([] : List (String × List String)) := by
    intro k n hk
    simp [dlookup, List.lookup] at hk
  exact revInv_foldl rows [] [] hbase k n h

/-- Contacts row of end-to-end scenario A, shared across claims. -/
def dylanRow : ContactRow := ⟨("Dylan"), ("Westhimer"), ("+13108820189")⟩

theorem process_contacts_consistent_witness :
    dlookup (process_contacts [dylanRow]).1 ("13108820189") = some ("Dylan Westhimer") ∧
    ("13108820189" : String) ∈ rlookup (process_contacts [dylanRow]).2 ("Dylan Westhimer") :=
  ⟨by decide,
   process_contacts_forward_reverse_consistent [dylanRow] ("13108820189")
     ("Dylan Westhimer") (by decide)⟩

/-- Cache state holding a previously refreshed non-empty snapshot whose TTL
has expired at time 301. -/
def staleDylanCache : CacheState := ⟨some [(("13108820189"), ("Dylan Westhimer"))], 0⟩

/-- C3 counterexample: with a non-empty snapshot cached at time 0 and the TTL
expired at time 301, a read whose refresh fails (the contacts loader
returns the empty map) replaces the cached snapshot with the empty map and
returns the empty map, not the previous snapshot. -/
theorem get_cached_contacts_drops_snapshot :
    (get_cached_contacts [] 301 staleDylanCache).1 = [] ∧
    (get_cached_contacts [] 301 staleDylanCache).2.cache = some [] ∧
    ¬ (get_cached_contacts [] 301 staleDylanCache).1 =
        [(("13108820189"), ("Dylan Westhimer"))] := by
  refine ⟨rfl, rfl, ?_⟩
  decide

/-- C3 amended: when the cache is empty or the TTL has expired, a
`get_cached_contacts` read unconditionally overwrites the cached snapshot
with whatever the refresh produced and returns that; in particular a failed
refresh (which produces the empty map) discards the previous snapshot. -/
theorem get_cached_contacts_refresh_overwrites (st : CacheState) (now : Int)
    (fetch : List (String × String))
    (h : st.cache = none ∨ 300 < now - st.lastUpdate) :
    get_cached_contacts fetch now st = (fetch, ⟨some fetch, now⟩) := by
  unfold get_cached_contacts
  have hcond : (st.cache.isNone || decide (300 < now - st.lastUpdate)) = true := by
    rcases h with h | h
    · simp [h]
    · simp [h]
  rw [if_pos hcond]

theorem get_cached_contacts_refresh_overwrites_witness :
    (staleDylanCache.cache = none ∨ 300 < (301 : Int) - staleDylanCache.lastUpdate) ∧
    get_cached_contacts [] 301 staleDylanCache =
      ([], ⟨some [], 301⟩) :=
  ⟨by decide, get_cached_contacts_refresh_overwrites staleDylanCache 301 [] (by decide)⟩

/-- C4 counterexample: for a normalized key of 12 digits starting with 1,
the code still probes the directory for the key with its leading 1 removed
(the guard is `len > 10`, not `len == 11`), so the probe sequence described
by the claim (which would find nothing here) disagrees with the code. -/
theorem direct_number_probe_twelve_digits :
    get_contact_name_probe [(("23105551234"), ("Bob"))] ("123105551234") = some ("Bob") ∧
    resolveDirectNumberClaim [(("23105551234"), ("Bob"))] ("123105551234") = none := by
  exact ⟨rfl, rfl⟩

/-- C4 amended: the direct-number resolution probes the directory, first hit
winning, for: the normalized key; then, whenever the key starts with 1 and
has more than 10 digits, the key with its leading 1 removed; then, whenever
the key has exactly 10 digits, the 1-prefixed key.  In particular both
scenario inputs resolve to Alice. -/
theorem direct_number_probe_order (contacts : List (String × String)) (raw : String) :
    (get_contact_name_probe contacts raw =
      firstHit contacts
        ([normalize_phone_number raw]
          ++ (if startsWithChars ['1'] (normalize_phone_number raw).toList
                && decide (10 < (normalize_phone_number raw).length)
              then [String.mk ((normalize_phone_number raw).toList.drop 1)] else [])
          ++ (if (normalize_phone_number raw).length == 10
              then [("1" : String) ++ normalize_phone_number raw] else []))) ∧
    get_contact_name_probe [(("13105551234"), ("Alice"))] ("3105551234") = some ("Alice") ∧
    get_contact_name_probe [(("13105551234"), ("Alice"))] ("+1 (310) 555-1234") = some ("Alice") := by
  refine ⟨?_, rfl, rfl⟩
  simp only [get_contact_name_probe]
  cases hd : dlookup contacts (normalize_phone_number raw) with
  | some nm => simp [firstHit, hd]
  | none =>
    simp only [firstHit, hd]
    by_cases h1 : (startsWithChars ['1'] (normalize_phone_number raw).toList
        && decide (10 < (normalize_phone_number raw).length)) = true
    · have h2 : ((normalize_phone_number raw).length == 10) = false := by
        rcases Bool.and_eq_true_iff.mp h1 with ⟨-, hlen⟩
        have hgt := of_decide_eq_true hlen
        simp only [beq_eq_false_iff_ne, ne_eq]
        omega
      rw [if_pos h1, if_pos h1, if_neg (by simp [h2])]
      cases hd2 : dlookup contacts (String.mk ((normalize_phone_number raw).toList.drop 1)) with
      | some nm =>
        rw [List.drop_one] at hd2
        simp only [String.toList] at hd2
        simp [firstHit, hd2, String.toList]
      | none =>
        rw [List.drop_one] at hd2
        simp only [String.toList] at hd2
        simp [firstHit, hd2, String.toList]
    · rw [if_neg h1, if_neg h1]
      by_cases h2 : ((normalize_phone_number raw).length == 10) = true
      · rw [if_pos h2, if_pos h2]
        cases hd3 : dlookup contacts (("1" : String) ++ normalize_phone_number raw) with
        | some nm => simp [firstHit, hd3]
        | none => simp [firstHit, hd3]
      · rw [if_neg h2, if_neg h2]
        simp [firstHit]

theorem scoreLe_trans : ∀ a b c : ScoredMatch,
    scoreLe a b = true → scoreLe b c = true → scoreLe a c = true := by
  intro a b c hab hbc
  simp only [scoreLe, decide_eq_true_eq] at *
  exact le_trans hab hbc

theorem scoreLe_total : ∀ a b : ScoredMatch, scoreLe a b = true ∨ scoreLe b a = true := by
  intro a b
  simp only [scoreLe, decide_eq_true_eq]
  exact le_total _ _

theorem scoreStep_score_ge {query : List Char} {t : ℚ} (ht : t ≤ 1)
    {nm : String × String} {r : ScoredMatch} (h : scoreStep query t nm = some r) :
    t ≤ r.score := by
  simp only [scoreStep] at h
  split_ifs at h with h1 h2 h3
  · cases h
    exact ht
  · cases h
    exact of_decide_eq_true (Bool.and_eq_true_iff.mp h2).2
  · cases h
    exact of_decide_eq_true h3

theorem fuzzy_match_raw_score_ge (q : String) (cands : List (String × String))
    (t : ℚ) (ht : t ≤ 1) :
    ∀ r ∈ fuzzy_match_raw q cands t, t ≤ r.score := by
  intro r hr
  simp only [fuzzy_match_raw] at hr
  rcases List.mem_filterMap.mp hr with ⟨nm, -, hstep⟩
  exact scoreStep_score_ge ht hstep

/-- C5: for every query, candidate list and threshold at most 1 (0.6 by
default), the list returned by `fuzzy_match` is sorted by non-increasing
score, every returned candidate scores at least the threshold, and for each
score value the returned candidates equal the threshold survivors in their
original candidate order (the sort is stable). -/
theorem fuzzy_match_sorted_threshold_stable (q : String)
    (cands : List (String × String)) (t : ℚ) (ht : t ≤ 1) :
    (fuzzy_match q cands t).Pairwise (fun a b => b.score ≤ a.score) ∧
    (∀ r ∈ fuzzy_match q cands t, t ≤ r.score) ∧
    (∀ s : ℚ, (fuzzy_match q cands t).filter (fun r => decide (r.score = s)) =
      (fuzzy_match_raw q cands t).filter (fun r => decide (r.score = s))) := by
  refine ⟨?_, ?_, ?_⟩
  · have hp := pairwise_sortStable scoreLe scoreLe_trans scoreLe_total
      (fuzzy_match_raw q cands t)
    exact hp.imp (fun h => by simpa [scoreLe] using h)
  · intro r hr
    have hperm := sortStable_perm scoreLe (fuzzy_match_raw q cands t)
    exact fuzzy_match_raw_score_ge q cands t ht r (hperm.mem_iff.mp hr)
  · intro s
    refine filter_sortStable scoreLe (fun r => decide (r.score = s)) ?_ _
    intro x y hpx hle
    have hx : x.score = s := of_decide_eq_true hpx
    have hyx : ¬ (y.score ≤ x.score) := by simpa [scoreLe] using hle
    have hne : ¬ (y.score = s) := fun hys => hyx (le_of_eq (hys.trans hx.symm))
    simpa using hne

theorem fuzzy_match_sorted_threshold_stable_witness :
    ((mkRat 3 5 : ℚ) ≤ 1) ∧
    ((fuzzy_match ("John Smit")
        [(("John Smith"), ("1")), (("John Smithe"), ("2"))] (mkRat 3 5)).Pairwise
        (fun a b => b.score ≤ a.score) ∧
      (∀ r ∈ fuzzy_match ("John Smit")
          [(("John Smith"), ("1")), (("John Smithe"), ("2"))] (mkRat 3 5),
        (mkRat 3 5 : ℚ) ≤ r.score) ∧
      (∀ s : ℚ,
        (fuzzy_match ("John Smit")
            [(("John Smith"), ("1")), (("John Smithe"), ("2"))]
            (mkRat 3 5)).filter (fun r => decide (r.score = s)) =
        (fuzzy_match_raw ("John Smit")
            [(("John Smith"), ("1")), (("John Smithe"), ("2"))]
            (mkRat 3 5)).filter (fun r => decide (r.score = s)))) :=
  ⟨by decide,
   fuzzy_match_sorted_threshold_stable ("John Smit")
     [(("John Smith"), ("1")), (("John Smithe"), ("2"))] (mkRat 3 5) (by decide)⟩

/-- C2 counterexample: the cleaned query is a proper substring of the cleaned
candidate, the substring score `(10 / 16) * 0.9 = 0.5625` is below the 0.6
threshold, yet the candidate is still returned — with the generic
sequence-similarity score `10 / 13`, not the substring score.  This refutes
both the claimed exact score and the claimed return-iff condition. -/
theorem fuzzy_match_substring_fallthrough_cex :
    fuzzy_match ("jonathansm") [(("jonathansmithson"), ("p"))] (mkRat 3 5) =
      [⟨("jonathansmithson"), ("p"), mkRat 20 26⟩] ∧
    mkRat (9 * 10) (10 * 16) < mkRat 3 5 ∧
    ¬ (mkRat 20 26 : ℚ) = mkRat (9 * 10) (10 * 16) ∧
    ¬ pyLower (clean_name ("jonathansm")).toList =
        pyLower (clean_name ("jonathansmithson")).toList ∧
    hasSubChars (pyLower (clean_name ("jonathansm")).toList)
      (pyLower (clean_name ("jonathansmithson")).toList) = true := by
  refine ⟨by decide, by decide, by decide, by decide, by decide⟩

/-- C2 amended: for a pair whose cleaned lowercased forms are unequal with
the cleaned query a substring of the cleaned candidate, the scorer assigns
the substring score `(len(query) / len(candidate)) * 0.9` only when that
score meets the threshold; otherwise it falls through to the generic
sequence-similarity score, and the candidate is returned iff that fallback
score meets the threshold, carrying the fallback score. -/
theorem fuzzy_match_substring_fallthrough (nm val q : String) (t : ℚ)
    (hne : ¬ pyLower (clean_name q).toList = pyLower (clean_name nm).toList)
    (hsub : hasSubChars (pyLower (clean_name q).toList)
      (pyLower (clean_name nm).toList) = true) :
    fuzzy_match q [(nm, val)] t =
      if t ≤ mkRat (9 * (pyLower (clean_name q).toList).length)
                   (10 * (pyLower (clean_name nm).toList).length) then
        [⟨nm, val,
          mkRat (9 * (pyLower (clean_name q).toList).length)
                (10 * (pyLower (clean_name nm).toList).length)⟩]
      else if t ≤ seqMatchScore (pyLower (clean_name q).toList)
                    (pyLower (clean_name nm).toList) then
        [⟨nm, val, seqMatchScore (pyLower (clean_name q).toList)
                     (pyLower (clean_name nm).toList)⟩]
      else [] := by
  by_cases ht1 : t ≤ mkRat (9 * (pyLower (clean_name q).toList).length)
      (10 * (pyLower (clean_name nm).toList).length)
  · simp only [String.toList] at hne hsub ht1
    simp [fuzzy_match, fuzzy_match_raw, scoreStep, List.filterMap_cons,
      List.filterMap_nil, hne, hsub, ht1, sortStable, insertStable]
  · by_cases ht2 : t ≤ seqMatchScore (pyLower (clean_name q).toList)
        (pyLower (clean_name nm).toList)
    · simp only [String.toList] at hne hsub ht1 ht2
      simp [fuzzy_match, fuzzy_match_raw, scoreStep, List.filterMap_cons,
        List.filterMap_nil, hne, hsub, ht1, ht2, sortStable, insertStable]
    · simp only [String.toList] at hne hsub ht1 ht2
      simp [fuzzy_match, fuzzy_match_raw, scoreStep, List.filterMap_cons,
        List.filterMap_nil, hne, hsub, ht1, ht2, sortStable]

theorem fuzzy_match_substring_fallthrough_witness :
    (¬ pyLower (clean_name ("jo")).toList = pyLower (clean_name ("john")).toList) ∧
    hasSubChars (pyLower (clean_name ("jo")).toList)
      (pyLower (clean_name ("john")).toList) = true ∧
    fuzzy_match ("jo") [(("john"), ("v"))] (mkRat 3 5) =
      (if (mkRat 3 5 : ℚ) ≤ mkRat (9 * (pyLower (clean_name ("jo")).toList).length)
              (10 * (pyLower (clean_name ("john")).toList).length) then
        [⟨("john"), ("v"),
          mkRat (9 * (pyLower (clean_name ("jo")).toList).length)
                (10 * (pyLower (clean_name ("john")).toList).length)⟩]
      else if (mkRat 3 5 : ℚ) ≤ seqMatchScore (pyLower (clean_name ("jo")).toList)
                    (pyLower (clean_name ("john")).toList) then
        [⟨("john"), ("v"), seqMatchScore (pyLower (clean_name ("jo")).toList)
                     (pyLower (clean_name ("john")).toList)⟩]
      else []) :=
  ⟨by decide, by decide,
   fuzzy_match_substring_fallthrough ("john") ("v") ("jo") (mkRat 3 5)
     (by decide) (by decide)⟩

/-- Directory built by a refresh from the single scenario-A contacts row. -/
def dylanDirectory : List (String × String) := (process_contacts [dylanRow]).1

/-- C1 counterexample: over the directory built from the single row
(Dylan, Westhimer, +13108820189), resolving the name dylan does not return
the single candidate (Dylan Westhimer, 13108820189, 1.0) claimed by the
spec: the cleaned query "dylan" is not equal to "dylan westhimer", the
substring score is 0.3 and the fallback similarity is 0.5, both below the
0.6 threshold. -/
theorem resolve_dylan_not_single_match :
    ¬ find_contact_by_name dylanDirectory ("dylan") =
        [⟨("Dylan Westhimer"), ("13108820189"), 1⟩] := by
  decide

/-- C1 amended: over the directory built from the single row
(Dylan, Westhimer, +13108820189), resolving the name dylan returns no
candidates at all: no scoring rule reaches the default 0.6 threshold. -/
theorem resolve_dylan_returns_empty :
    find_contact_by_name dylanDirectory ("dylan") = [] := by
  decide

/-- Success test of the selection outcome. -/
def exceptOk (e : Except String ScoredMatch) : Bool :=
  match e with
  | .ok _ => true
  | .error _ => false

/-- Value of a successful selection outcome. -/
def exceptValue (e : Except String ScoredMatch) : Option ScoredMatch :=
  match e with
  | .ok c => some c
  | .error _ => none

/-- C6: index selection fails exactly when no matches are recorded, the
index is at most 0, or the index exceeds the number of recorded matches; in
the failure cases neither a send nor a history query happens, and otherwise
the selection succeeds, returning the 1-based i-th recorded candidate, which
is then used for the send or the history query. -/
theorem select_by_index_range (ms : List ScoredMatch) (i : Int) (msg : String) :
    ((ms = [] ∨ i ≤ 0 ∨ (ms.length : Int) < i) →
      exceptOk (selectByIndex ms i) = false ∧
      (send_message_selection ms i msg).isSent = false ∧
      (get_recent_messages_selection ms i).isProceed = false) ∧
    ((¬ ms = [] ∧ 1 ≤ i ∧ i ≤ (ms.length : Int)) →
      exceptValue (selectByIndex ms i) = ms.get? (i - 1).toNat ∧
      (ms.get? (i - 1).toNat).isSome = true ∧
      (send_message_selection ms i msg).isSent = true ∧
      (get_recent_messages_selection ms i).isProceed = true) := by
  constructor
  · intro hfail
    have hsel : ∃ e, selectByIndex ms i = Except.error e := by
      unfold selectByIndex
      by_cases hemp : ms.isEmpty
      · rw [if_pos hemp]
        exact ⟨_, rfl⟩
      · rw [if_neg hemp]
        have hcond : i - 1 < 0 ∨ (ms.length : Int) ≤ i - 1 := by
          rcases hfail with h | h | h
          · exact absurd (by simp [h]) hemp
          · left
            omega
          · right
            omega
        rw [dif_pos hcond]
        exact ⟨_, rfl⟩
    obtain ⟨e, he⟩ := hsel
    refine ⟨?_, ?_, ?_⟩ <;>
      simp [he, exceptOk, send_message_selection, get_recent_messages_selection,
        SendOutcome.isSent, HistoryOutcome.isProceed]
  · rintro ⟨hne, h1, h2⟩
    have hemp : ms.isEmpty = false := by
      cases ms with
      | nil => exact absurd rfl hne
      | cons a as => rfl
    have hcond : ¬ (i - 1 < 0 ∨ (ms.length : Int) ≤ i - 1) := by omega
    have hlt : (i - 1).toNat < ms.length := by omega
    have hsel : selectByIndex ms i = Except.ok (ms.get ⟨(i - 1).toNat, hlt⟩) := by
      unfold selectByIndex
      rw [if_neg (by simp [hemp]), dif_neg hcond]
    refine ⟨?_, ?_, ?_, ?_⟩
    · rw [hsel, List.get?_eq_get hlt]
      rfl
    · rw [List.get?_eq_get hlt]
      rfl
    · simp [send_message_selection, hsel, SendOutcome.isSent]
    · simp [get_recent_messages_selection, hsel, HistoryOutcome.isProceed]

/-- Recorded match used as the C6 witness. -/
def johnMatch : ScoredMatch := ⟨("John Smith"), ("15551234567"), 1⟩

theorem select_by_index_range_witness :
    ((¬ ([johnMatch] : List ScoredMatch) = [] ∧ (1 : Int) ≤ 1 ∧
        (1 : Int) ≤ (([johnMatch] : List ScoredMatch).length : Int)) ∧
      exceptValue (selectByIndex [johnMatch] 1) =
        ([johnMatch] : List ScoredMatch).get? ((1 : Int) - 1).toNat) ∧
    ((([] : List ScoredMatch) = [] ∨ (2 : Int) ≤ 0 ∨
        ((([] : List ScoredMatch).length : Int) < 2)) ∧
      exceptOk (selectByIndex ([] : List ScoredMatch) 2) = false) :=
  ⟨⟨⟨by decide, by decide, by decide⟩,
    ((select_by_index_range [johnMatch] 1 ("x")).2
      ⟨by decide, by decide, by decide⟩).1⟩,
   ⟨Or.inl rfl,
    ((select_by_index_range ([] : List ScoredMatch) 2 ("x")).1 (Or.inl rfl)).1⟩⟩

end MacMessages



